import Mathlib

/-!
Shallow embedding of the dbg-cpp pretty-printing header (src/dbg.h).

The C++ code writes to a global output stream and mutates one global
`indent` string.  The embedding turns every printing routine into a pure
function from its inputs and the current indentation string to
`Except String (String × String)`: either an error (used exactly where the
source has undefined behavior, as explained at the relevant definitions) or
the pair (emitted text, indentation string after the call).

Type names in the source come from `typeid(...).name()` plus, on GCC/Clang,
`abi::__cxa_demangle` (the source's primary documented configuration).  The
demangler is part of the runtime environment, so values in the embedding
carry the demangled type identifier as data; the source's own string
processing of that identifier (`PrintTypeName`, truncation at the first
angle bracket plus a fixed remap table) is embedded faithfully below.
-/

/-- Embedding of `IncreaseIndent` (src/dbg.h:110-112): append two spaces to
the indentation string. -/
def IncreaseIndent (s : String) : String :=
  s ++ "  "

/-- Embedding of `DecreaseIndent` (src/dbg.h:115-117): `indent.resize(indent.size() - 2)`
removes the last two characters.  (For an indentation shorter than two
characters the C++ size arithmetic would underflow; that point is never
reached because every decrease follows a matching increase, and the natural
subtraction used here is harmless.) -/
def DecreaseIndent (s : String) : String :=
  String.mk (s.data.dropLast.dropLast)

/-- Embedding of `PrintTypeName` (src/dbg.h:123-151), applied to the
(already demangled, when a demangler is available) type identifier: scan for
the first angle bracket; when found, print only the part before it, after
remapping the two internal standard-library spellings that the source
special-cases; when no angle bracket occurs, print the identifier as is. -/
def PrintTypeName (name : String) : String :=
  let l := name.data
  let pre := l.takeWhile (fun c => c ≠ '<')
  if pre.length = l.length then
    name
  else
    let s := String.mk pre
    if s = "std::__cxx11::basic_string" then "std::string"
    else if s = "std::__cxx11::list" then "std::list"
    else s

/-- Character class of C `isspace` in the default locale, used by
`ArgNames::pop` (src/dbg.h:634). -/
def isSpaceC (c : Char) : Bool :=
  c = ' ' || c = '\t' || c = '\n' || c = Char.ofNat 11 || c = Char.ofNat 12 || c = '\r'

/-- Number of leading characters of the remaining input skipped by the
whitespace loop at src/dbg.h:634: the loop advances while the position is in
range and the character is whitespace. -/
def skipWsCount : List Char → Nat
  | [] => 0
  | c :: tl => if isSpaceC c then 1 + skipWsCount tl else 0

/-- Number of characters stepped over by the balanced-parenthesis scan at
src/dbg.h:642-653, starting from nesting level `lvl`: the loop stops at the
character that brings the level to zero (that character is not counted) or
at the end of the input. -/
def findCloseSteps : List Char → Int → Nat
  | [], _ => 0
  | c :: tl, lvl =>
    let lvl2 := if c = '(' then lvl + 1 else if c = ')' then lvl - 1 else lvl
    if lvl2 = 0 then 0 else 1 + findCloseSteps tl lvl2

/-- Number of characters stepped over by the scan-to-comma loops at
src/dbg.h:655-656 and src/dbg.h:660-662: the loop stops at the first comma
(not counted) or at the end of the input. -/
def findCommaSteps : List Char → Nat
  | [] => 0
  | c :: tl => if c = ',' then 0 else 1 + findCommaSteps tl

/-- Embedding of `ArgNames::pop` (src/dbg.h:633-668) on the argument string
`args` with current scan index `idx`; returns the popped name and the new
index.  The source indexes `args_[idx_]` directly after the two guards; when
`idx` exceeds the length this read is past the end of the string (undefined
behavior in C++), which the embedding reports as an explicit error. -/
def ArgNames.pop (args : List Char) (idx : Nat) : Except String (String × Nat) :=
  let i := idx + skipWsCount (List.drop idx args)
  if i = args.length then
    .ok ("", i)
  else
    match List.get? args i with
    | none => .error "index out of range"
    | some c =>
      if c = '(' then
        let e := i + 1 + findCloseSteps (List.drop (i + 1) args) 1
        let name := String.mk (List.take (e - i - 1) (List.drop (i + 1) args))
        let e2 := e + findCommaSteps (List.drop e args)
        .ok (name, e2 + 1)
      else
        let e := i + 1 + findCommaSteps (List.drop (i + 1) args)
        .ok (String.mk (List.take (e - i) (List.drop i args)), e + 1)

/-- Pop `n` names in sequence from the raw argument text, collecting the
results, as the variadic multiplexer does one `pop` per argument. -/
def popManyAux (args : List Char) (idx : Nat) : Nat → Except String (List String)
  | 0 => .ok []
  | n + 1 =>
    match ArgNames.pop args idx with
    | .error e => .error e
    | .ok (name, idx2) =>
      match popManyAux args idx2 n with
      | .error e => .error e
      | .ok names => .ok (name :: names)

/-- Names produced by `n` successive `ArgNames::pop` calls on `raw`. -/
def popMany (raw : String) (n : Nat) : Except String (List String) :=
  popManyAux raw.data 0 n

/-!
Renderable values.  The C++ renderer dispatches statically on the argument
type; the embedding mirrors that dispatch with one constructor per overload
of `PrettyPrint`.  Containers of scalar elements hold the elements' stream
renderings (`out << x` on a scalar prints its natural textual form), while
containers of class-type elements hold embedded values and carry the
demangled element-type identifier that `typeid`/`__cxa_demangle` would
supply to `PrintTypeName`.  Conventions on element order, matching the
iteration each overload performs: `vecS`/`vecC` index order; `queS`/`queC`
front (least recently pushed) first; `stkS`/`stkC` top (most recently
pushed) first, because `std::stack` is drained with `top()`/`pop()`;
`setS`/`setC` ascending key order; `usetS`/`usetC` whatever bucket order
the unordered container's iterators produce; `mapV` ascending key order.
A null owning pointer has no pointee to take a type identifier from, hence
the dedicated null constructors for the class-pointee overloads.
-/

mutual

inductive Value where
  | scalar (s : String)
  | vstr (s : String)
  | vecS (elems : List String)
  | vecC (ety : String) (elems : ValueList)
  | queS (elems : List String)
  | queC (ety : String) (elems : ValueList)
  | stkS (elems : List String)
  | stkC (ety : String) (elems : ValueList)
  | setS (elems : List String)
  | setC (ety : String) (elems : ValueList)
  | usetS (elems : List String)
  | usetC (ety : String) (elems : ValueList)
  | mapV (kty vty : String) (entries : EntryList)
  | uptrS (p : Option String)
  | uptrC (pty : String) (v : Value)
  | uptrCNull (pty : String)
  | sptrS (p : Option String)
  | sptrC (pty : String) (v : Value)
  | sptrCNull (pty : String)
  | agg (raw : String) (fields : FieldList)

inductive ValueList where
  | nil
  | cons (v : Value) (tl : ValueList)

inductive EntryList where
  | nil
  | cons (k v : Value) (tl : EntryList)

inductive FieldList where
  | nil
  | cons (tyName : String) (v : Value) (tl : FieldList)

end

/-- Comma-space separated continuation emitted by the second half of the
scalar-container loops (for example src/dbg.h:251-254): each further element
is preceded by a comma and a space. -/
def commaSepTail : List String → String
  | [] => ""
  | e :: tl => ", " ++ e ++ commaSepTail tl

/-- One-line scalar-container body (for example src/dbg.h:247-255): the
first element, if any, then the comma-space continuation. -/
def scalarElemsBody : List String → String
  | [] => ""
  | e :: tl => e ++ commaSepTail tl

/-- Error text for the one rendering step the source leaves undefined:
dereferencing a null owning pointer (src/dbg.h:578-620 has no null guard).
The spec requires this exact failure mode instead of undefined behavior. -/
def nullDerefMsg : String := "null dereference on render"

mutual

/-- Embedding of the `PrettyPrint` overload family (src/dbg.h:177-620) and
of the method that `DERIVE_DEBUG` generates (src/dbg.h:736-744).  Given a
value and the current indentation it returns the emitted text and the
indentation after the call, or an error on a null-pointer dereference
(undefined behavior in the source, reported explicitly here). -/
def PrettyPrint : Value → String → Except String (String × String)
  | .scalar s, ind => .ok (s, ind)
  | .vstr s, ind => .ok ("\"" ++ s ++ "\"", ind)
  | .vecS elems, ind => .ok ("\x7b" ++ scalarElemsBody elems ++ "\x7d", ind)
  | .queS elems, ind => .ok ("\x7b" ++ scalarElemsBody elems ++ "\x7d", ind)
  | .stkS elems, ind => .ok ("\x7b" ++ scalarElemsBody elems ++ "\x7d", ind)
  | .setS elems, ind => .ok ("\x7b" ++ scalarElemsBody elems ++ "\x7d", ind)
  | .usetS elems, ind => .ok ("\x7b" ++ scalarElemsBody elems ++ "\x7d", ind)
  | .vecC ety elems, ind =>
    match elems with
    | .nil => .ok ("\x7b\x7d", ind)
    | .cons e tl =>
      match PrettyPrintElems 0 (ValueList.cons e tl) (IncreaseIndent ind) with
      | .error err => .error err
      | .ok (body, ind2) =>
        .ok ("\x7b\n" ++ IncreaseIndent ind ++ "<" ++ PrintTypeName ety ++ ">\n"
              ++ body ++ DecreaseIndent ind2 ++ "\x7d", DecreaseIndent ind2)
  | .queC ety elems, ind =>
    match elems with
    | .nil => .ok ("\x7b\x7d", ind)
    | .cons e tl =>
      match PrettyPrintElems 0 (ValueList.cons e tl) (IncreaseIndent ind) with
      | .error err => .error err
      | .ok (body, ind2) =>
        .ok ("\x7b\n" ++ IncreaseIndent ind ++ "<" ++ PrintTypeName ety ++ ">\n"
              ++ body ++ DecreaseIndent ind2 ++ "\x7d", DecreaseIndent ind2)
  | .stkC ety elems, ind =>
    match elems with
    | .nil => .ok ("\x7b\x7d", ind)
    | .cons e tl =>
      match PrettyPrintElems 0 (ValueList.cons e tl) (IncreaseIndent ind) with
      | .error err => .error err
      | .ok (body, ind2) =>
        .ok ("\x7b\n" ++ IncreaseIndent ind ++ "<" ++ PrintTypeName ety ++ ">\n"
              ++ body ++ DecreaseIndent ind2 ++ "\x7d", DecreaseIndent ind2)
  | .setC ety elems, ind =>
    match elems with
    | .nil => .ok ("\x7b\x7d", ind)
    | .cons e tl =>
      match PrettyPrintElems 0 (ValueList.cons e tl) (IncreaseIndent ind) with
      | .error err => .error err
      | .ok (body, ind2) =>
        .ok ("\x7b\n" ++ IncreaseIndent ind ++ "<" ++ PrintTypeName ety ++ ">\n"
              ++ body ++ DecreaseIndent ind2 ++ "\x7d", DecreaseIndent ind2)
  | .usetC ety elems, ind =>
    match elems with
    | .nil => .ok ("\x7b\x7d", ind)
    | .cons e tl =>
      match PrettyPrintSetElems (ValueList.cons e tl) (IncreaseIndent ind) with
      | .error err => .error err
      | .ok (body, ind2) =>
        .ok ("\x7b\n" ++ IncreaseIndent ind ++ "<" ++ PrintTypeName ety ++ ">\n"
              ++ body ++ DecreaseIndent ind2 ++ "\x7d", DecreaseIndent ind2)
  | .mapV kty vty entries, ind =>
    match entries with
    | .nil => .ok ("\x7b\x7d", ind)
    | .cons k v tl =>
      match PrettyPrintMapEntries (EntryList.cons k v tl) (IncreaseIndent ind) with
      | .error err => .error err
      | .ok (body, ind2) =>
        .ok ("\x7b\n" ++ IncreaseIndent ind ++ "<" ++ PrintTypeName kty ++ " -> "
              ++ PrintTypeName vty ++ ">\n"
              ++ body ++ DecreaseIndent ind2 ++ "\x7d", DecreaseIndent ind2)
  | .uptrS p, ind =>
    match p with
    | none => .error nullDerefMsg
    | some s => .ok ("\x7b" ++ s ++ "\x7d", ind)
  | .uptrC pty v, ind =>
    match PrettyPrint v (IncreaseIndent ind) with
    | .error err => .error err
    | .ok (s, ind2) =>
      .ok ("\x7b\n" ++ IncreaseIndent ind ++ "< -> " ++ PrintTypeName pty ++ ">\n"
            ++ IncreaseIndent ind ++ s ++ "\n" ++ DecreaseIndent ind2 ++ "\x7d",
           DecreaseIndent ind2)
  | .uptrCNull _, _ => .error nullDerefMsg
  | .sptrS p, ind =>
    match p with
    | none => .error nullDerefMsg
    | some s => .ok ("\x7b" ++ s ++ "\x7d", ind)
  | .sptrC pty v, ind =>
    match PrettyPrint v (IncreaseIndent ind) with
    | .error err => .error err
    | .ok (s, ind2) =>
      .ok ("\x7b\n" ++ IncreaseIndent ind ++ "<" ++ PrintTypeName pty ++ ">\n"
            ++ IncreaseIndent ind ++ s ++ "\n" ++ DecreaseIndent ind2 ++ "\x7d",
           DecreaseIndent ind2)
  | .sptrCNull _, _ => .error nullDerefMsg
  | .agg raw fields, ind =>
    match MultiplexPrettyPrintOnNamedArgs raw.data 0 fields (IncreaseIndent ind) with
    | .error err => .error err
    | .ok (body, ind2) =>
      .ok ("\x7b\n" ++ body ++ DecreaseIndent ind2 ++ "\x7d", DecreaseIndent ind2)

/-- Embedding of the indexed element loop shared by the class-element
container overloads (for example src/dbg.h:271-275): each element is
emitted on its own line as indentation, `[i] = `, the recursive rendering,
and a newline. -/
def PrettyPrintElems : Nat → ValueList → String → Except String (String × String)
  | _, .nil, ind => .ok ("", ind)
  | i, .cons v tl, ind =>
    match PrettyPrint v ind with
    | .error err => .error err
    | .ok (s, ind1) =>
      match PrettyPrintElems (i + 1) tl ind1 with
      | .error err => .error err
      | .ok (t, ind2) =>
        .ok (ind ++ "[" ++ toString i ++ "] = " ++ s ++ "\n" ++ t, ind2)

/-- Embedding of the element loop of the unordered-set class overload
(src/dbg.h:514-517): the recursive rendering and a newline only, with
neither indentation nor an index tag in front. -/
def PrettyPrintSetElems : ValueList → String → Except String (String × String)
  | .nil, ind => .ok ("", ind)
  | .cons v tl, ind =>
    match PrettyPrint v ind with
    | .error err => .error err
    | .ok (s, ind1) =>
      match PrettyPrintSetElems tl ind1 with
      | .error err => .error err
      | .ok (t, ind2) => .ok (s ++ "\n" ++ t, ind2)

/-- Embedding of the map entry loop (src/dbg.h:538-544): each entry is
emitted as indentation, `[`, the rendered key, `] = `, the rendered value,
and a newline. -/
def PrettyPrintMapEntries : EntryList → String → Except String (String × String)
  | .nil, ind => .ok ("", ind)
  | .cons k v tl, ind =>
    match PrettyPrint k ind with
    | .error err => .error err
    | .ok (ks, indk) =>
      match PrettyPrint v indk with
      | .error err => .error err
      | .ok (vs, indv) =>
        match PrettyPrintMapEntries tl indv with
        | .error err => .error err
        | .ok (t, ind2) =>
          .ok (ind ++ "[" ++ ks ++ "] = " ++ vs ++ "\n" ++ t, ind2)

/-- Embedding of `MultiplexPrettyPrintOnNamedArgs` (src/dbg.h:678-699):
pop the next display name from the raw argument text, emit one line of the
form indentation, name, `: `, type name, ` = `, rendered value, newline,
then recurse on the remaining values. -/
def MultiplexPrettyPrintOnNamedArgs :
    List Char → Nat → FieldList → String → Except String (String × String)
  | _, _, .nil, ind => .ok ("", ind)
  | args, idx, .cons tyName v tl, ind =>
    match ArgNames.pop args idx with
    | .error err => .error err
    | .ok (name, idx2) =>
      match PrettyPrint v ind with
      | .error err => .error err
      | .ok (s, ind1) =>
        match MultiplexPrettyPrintOnNamedArgs args idx2 tl ind1 with
        | .error err => .error err
        | .ok (t, ind2) =>
          .ok (ind ++ name ++ ": " ++ PrintTypeName tyName ++ " = " ++ s ++ "\n" ++ t,
               ind2)

end

/-- Embedding of `MultiplexPrettyPrintOnVaArgs` (src/dbg.h:703-707): start
the multiplexer on the raw argument text with the scan index at zero. -/
def MultiplexPrettyPrintOnVaArgs (raw : String) (fields : FieldList) (ind : String) :
    Except String (String × String) :=
  MultiplexPrettyPrintOnNamedArgs raw.data 0 fields ind


/-- Comma-space separated join, the form the spec demands for one-line
composite renderings: elements in order, separated by a comma and a space,
with no trailing separator. -/
def commaSpaceJoined : List String → String
  | [] => ""
  | [e] => e
  | e :: f :: tl => e ++ ", " ++ commaSpaceJoined (f :: tl)

/-- Push onto a LIFO adapter: `std::stack::push` places the new element at
the top, which the `Value.stkS`/`Value.stkC` convention stores at the head
of the list (the order in which the drain loop at src/dbg.h:363-374 visits
elements). -/
def pushStack (st : List String) (e : String) : List String :=
  e :: st

/-- Push onto a FIFO adapter: `std::queue::push` places the new element at
the back, while `front()` — the first element the drain loop at
src/dbg.h:322-333 visits — is the head of the list. -/
def pushQueue (q : List String) (e : String) : List String :=
  q ++ [e]

/-- Contents of a LIFO adapter after pushing the given elements, in order,
onto an initially empty stack. -/
def stackOfPushes (l : List String) : List String :=
  l.foldl pushStack []

/-- Contents of a FIFO adapter after pushing the given elements, in order,
onto an initially empty queue. -/
def queueOfPushes (l : List String) : List String :=
  l.foldl pushQueue []

/-- Identifier that `abi::__cxa_demangle` produces for `std::string` under
libstdc++, the configuration the source documents as its primary target
(src/dbg.h:36-37 and 62-67). -/
def cxxStringName : String :=
  "std::__cxx11::basic_string<char, std::char_traits<char>, std::allocator<char> >"

/-- Fixture: a user-defined aggregate whose `DERIVE_DEBUG(f)` method
renders one field named `f` of type `int` with value `7`. -/
def aggFoo : Value :=
  Value.agg "f" (FieldList.cons "int" (Value.scalar "7") FieldList.nil)

theorem data_append (a b : String) : (a ++ b).data = a.data ++ b.data := by
  cases a; cases b; rfl

theorem DecreaseIndent_IncreaseIndent (s : String) :
    DecreaseIndent (IncreaseIndent s) = s := by
  cases s with
  | mk l =>
    show String.mk (((String.mk l ++ "  ").data).dropLast.dropLast) = String.mk l
    rw [data_append]
    show String.mk ((l ++ [' ', ' ']).dropLast.dropLast) = String.mk l
    have h2 : l ++ [' ', ' '] = (l ++ [' ']) ++ [' '] := by simp
    rw [h2, List.dropLast_concat, List.dropLast_concat]

/-!
Balanced indentation.  Every composite rule either returns early on the
empty case without touching the indentation, or performs exactly one
increase and one decrease around its body; the lemmas below establish, by
mutual induction over the value shape, that every completed rendering
returns the indentation it was called with.
-/

mutual

theorem indentInvValue :
    ∀ (v : Value) (ind o ind2 : String),
      PrettyPrint v ind = Except.ok (o, ind2) → ind2 = ind
  | .scalar _, _, _, _, h => by
    simp [PrettyPrint] at h; exact h.2.symm
  | .vstr _, _, _, _, h => by
    simp [PrettyPrint] at h; exact h.2.symm
  | .vecS _, _, _, _, h => by
    simp [PrettyPrint] at h; exact h.2.symm
  | .queS _, _, _, _, h => by
    simp [PrettyPrint] at h; exact h.2.symm
  | .stkS _, _, _, _, h => by
    simp [PrettyPrint] at h; exact h.2.symm
  | .setS _, _, _, _, h => by
    simp [PrettyPrint] at h; exact h.2.symm
  | .usetS _, _, _, _, h => by
    simp [PrettyPrint] at h; exact h.2.symm
  | .vecC _ .nil, _, _, _, h => by
    simp [PrettyPrint] at h; exact h.2.symm
  | .vecC ety (.cons e tl), ind, o, ind2, h => by
    simp only [PrettyPrint] at h
    split at h
    next err heq => simp at h
    next body indb heq =>
      simp only [Except.ok.injEq, Prod.mk.injEq] at h
      have hinv := indentInvElems 0 (ValueList.cons e tl) (IncreaseIndent ind) body indb heq
      rw [← h.2, hinv, DecreaseIndent_IncreaseIndent]
  | .queC _ .nil, _, _, _, h => by
    simp [PrettyPrint] at h; exact h.2.symm
  | .queC ety (.cons e tl), ind, o, ind2, h => by
    simp only [PrettyPrint] at h
    split at h
    next err heq => simp at h
    next body indb heq =>
      simp only [Except.ok.injEq, Prod.mk.injEq] at h
      have hinv := indentInvElems 0 (ValueList.cons e tl) (IncreaseIndent ind) body indb heq
      rw [← h.2, hinv, DecreaseIndent_IncreaseIndent]
  | .stkC _ .nil, _, _, _, h => by
    simp [PrettyPrint] at h; exact h.2.symm
  | .stkC ety (.cons e tl), ind, o, ind2, h => by
    simp only [PrettyPrint] at h
    split at h
    next err heq => simp at h
    next body indb heq =>
      simp only [Except.ok.injEq, Prod.mk.injEq] at h
      have hinv := indentInvElems 0 (ValueList.cons e tl) (IncreaseIndent ind) body indb heq
      rw [← h.2, hinv, DecreaseIndent_IncreaseIndent]
  | .setC _ .nil, _, _, _, h => by
    simp [PrettyPrint] at h; exact h.2.symm
  | .setC ety (.cons e tl), ind, o, ind2, h => by
    simp only [PrettyPrint] at h
    split at h
    next err heq => simp at h
    next body indb heq =>
      simp only [Except.ok.injEq, Prod.mk.injEq] at h
      have hinv := indentInvElems 0 (ValueList.cons e tl) (IncreaseIndent ind) body indb heq
      rw [← h.2, hinv, DecreaseIndent_IncreaseIndent]
  | .usetC _ .nil, _, _, _, h => by
    simp [PrettyPrint] at h; exact h.2.symm
  | .usetC ety (.cons e tl), ind, o, ind2, h => by
    simp only [PrettyPrint] at h
    split at h
    next err heq => simp at h
    next body indb heq =>
      simp only [Except.ok.injEq, Prod.mk.injEq] at h
      have hinv := indentInvSetElems (ValueList.cons e tl) (IncreaseIndent ind) body indb heq
      rw [← h.2, hinv, DecreaseIndent_IncreaseIndent]
  | .mapV _ _ .nil, _, _, _, h => by
    simp [PrettyPrint] at h; exact h.2.symm
  | .mapV kty vty (.cons k v tl), ind, o, ind2, h => by
    simp only [PrettyPrint] at h
    split at h
    next err heq => simp at h
    next body indb heq =>
      simp only [Except.ok.injEq, Prod.mk.injEq] at h
      have hinv := indentInvMapEntries (EntryList.cons k v tl) (IncreaseIndent ind) body indb heq
      rw [← h.2, hinv, DecreaseIndent_IncreaseIndent]
  | .uptrS none, _, _, _, h => by
    simp [PrettyPrint] at h
  | .uptrS (some _), _, _, _, h => by
    simp [PrettyPrint] at h; exact h.2.symm
  | .uptrC pty v, ind, o, ind2, h => by
    simp only [PrettyPrint] at h
    split at h
    next err heq => simp at h
    next s indb heq =>
      simp only [Except.ok.injEq, Prod.mk.injEq] at h
      have hinv := indentInvValue v (IncreaseIndent ind) s indb heq
      rw [← h.2, hinv, DecreaseIndent_IncreaseIndent]
  | .uptrCNull _, _, _, _, h => by
    simp [PrettyPrint] at h
  | .sptrS none, _, _, _, h => by
    simp [PrettyPrint] at h
  | .sptrS (some _), _, _, _, h => by
    simp [PrettyPrint] at h; exact h.2.symm
  | .sptrC pty v, ind, o, ind2, h => by
    simp only [PrettyPrint] at h
    split at h
    next err heq => simp at h
    next s indb heq =>
      simp only [Except.ok.injEq, Prod.mk.injEq] at h
      have hinv := indentInvValue v (IncreaseIndent ind) s indb heq
      rw [← h.2, hinv, DecreaseIndent_IncreaseIndent]
  | .sptrCNull _, _, _, _, h => by
    simp [PrettyPrint] at h
  | .agg raw fields, ind, o, ind2, h => by
    simp only [PrettyPrint] at h
    split at h
    next err heq => simp at h
    next body indb heq =>
      simp only [Except.ok.injEq, Prod.mk.injEq] at h
      have hinv := indentInvMux raw.data 0 fields (IncreaseIndent ind) body indb heq
      rw [← h.2, hinv, DecreaseIndent_IncreaseIndent]

theorem indentInvElems :
    ∀ (i : Nat) (l : ValueList) (ind o ind2 : String),
      PrettyPrintElems i l ind = Except.ok (o, ind2) → ind2 = ind
  | _, .nil, _, _, _, h => by
    simp [PrettyPrintElems] at h; exact h.2.symm
  | i, .cons v tl, ind, o, ind2, h => by
    simp only [PrettyPrintElems] at h
    split at h
    next err heq => simp at h
    next s ind1 heqv =>
      split at h
      next err heq => simp at h
      next t indt heqt =>
        simp only [Except.ok.injEq, Prod.mk.injEq] at h
        have h1 := indentInvValue v ind s ind1 heqv
        have h2 := indentInvElems (i + 1) tl ind1 t indt heqt
        rw [← h.2, h2, h1]

theorem indentInvSetElems :
    ∀ (l : ValueList) (ind o ind2 : String),
      PrettyPrintSetElems l ind = Except.ok (o, ind2) → ind2 = ind
  | .nil, _, _, _, h => by
    simp [PrettyPrintSetElems] at h; exact h.2.symm
  | .cons v tl, ind, o, ind2, h => by
    simp only [PrettyPrintSetElems] at h
    split at h
    next err heq => simp at h
    next s ind1 heqv =>
      split at h
      next err heq => simp at h
      next t indt heqt =>
        simp only [Except.ok.injEq, Prod.mk.injEq] at h
        have h1 := indentInvValue v ind s ind1 heqv
        have h2 := indentInvSetElems tl ind1 t indt heqt
        rw [← h.2, h2, h1]

theorem indentInvMapEntries :
    ∀ (l : EntryList) (ind o ind2 : String),
      PrettyPrintMapEntries l ind = Except.ok (o, ind2) → ind2 = ind
  | .nil, _, _, _, h => by
    simp [PrettyPrintMapEntries] at h; exact h.2.symm
  | .cons k v tl, ind, o, ind2, h => by
    simp only [PrettyPrintMapEntries] at h
    split at h
    next err heq => simp at h
    next ks indk heqk =>
      split at h
      next err heq => simp at h
      next vs indv heqv =>
        split at h
        next err heq => simp at h
        next t indt heqt =>
          simp only [Except.ok.injEq, Prod.mk.injEq] at h
          have h1 := indentInvValue k ind ks indk heqk
          have h2 := indentInvValue v indk vs indv heqv
          have h3 := indentInvMapEntries tl indv t indt heqt
          rw [← h.2, h3, h2, h1]

theorem indentInvMux :
    ∀ (args : List Char) (idx : Nat) (l : FieldList) (ind o ind2 : String),
      MultiplexPrettyPrintOnNamedArgs args idx l ind = Except.ok (o, ind2) → ind2 = ind
  | _, _, .nil, _, _, _, h => by
    simp [MultiplexPrettyPrintOnNamedArgs] at h; exact h.2.symm
  | args, idx, .cons tyName v tl, ind, o, ind2, h => by
    simp only [MultiplexPrettyPrintOnNamedArgs] at h
    split at h
    next err heq => simp at h
    next name idx2 heqp =>
      split at h
      next err heq => simp at h
      next s ind1 heqv =>
        split at h
        next err heq => simp at h
        next t indt heqt =>
          simp only [Except.ok.injEq, Prod.mk.injEq] at h
          have h1 := indentInvValue v ind s ind1 heqv
          have h2 := indentInvMux args idx2 tl ind1 t indt heqt
          rw [← h.2, h2, h1]

end

theorem append_empty_str (s : String) : s ++ "" = s := by
  cases s with
  | mk l =>
    show String.mk (l ++ []) = String.mk l
    rw [List.append_nil]

theorem commaSepTail_prepend :
    ∀ (tl : List String) (e : String), e ++ commaSepTail tl = commaSpaceJoined (e :: tl)
  | [], e => by
    show e ++ "" = e
    exact append_empty_str e
  | f :: tl2, e => by
    have ih := commaSepTail_prepend tl2 f
    show e ++ (", " ++ f ++ commaSepTail tl2) = e ++ ", " ++ commaSpaceJoined (f :: tl2)
    rw [← ih]
    simp [String.append_assoc]

theorem scalarElemsBody_eq_commaSpaceJoined (l : List String) :
    scalarElemsBody l = commaSpaceJoined l := by
  cases l with
  | nil => rfl
  | cons e tl => exact commaSepTail_prepend tl e

theorem foldl_pushStack (l : List String) :
    ∀ acc, l.foldl pushStack acc = l.reverse ++ acc := by
  induction l with
  | nil => intro acc; simp
  | cons e tl ih =>
    intro acc
    simp only [List.foldl_cons, List.reverse_cons]
    rw [ih (pushStack acc e)]
    simp [pushStack]

theorem stackOfPushes_eq_reverse (l : List String) : stackOfPushes l = l.reverse := by
  simp [stackOfPushes, foldl_pushStack]

theorem foldl_pushQueue (l : List String) :
    ∀ acc, l.foldl pushQueue acc = acc ++ l := by
  induction l with
  | nil => intro acc; simp
  | cons e tl ih =>
    intro acc
    simp only [List.foldl_cons]
    rw [ih (pushQueue acc e)]
    simp [pushQueue]

theorem queueOfPushes_eq_self (l : List String) : queueOfPushes l = l := by
  simp [queueOfPushes, foldl_pushQueue]

/-- C1: every completed rendering by any `PrettyPrint` rule — scalar,
textual, sequence, set, map, adapter, indirection or aggregate, including
the empty composites that return early — hands back the indentation string
it was called with. -/
theorem claim_indentation_round_trip (v : Value) (ind o ind2 : String)
    (h : PrettyPrint v ind = Except.ok (o, ind2)) : ind2 = ind :=
  indentInvValue v ind o ind2 h

/-- Witness for C1 at a concrete nested rendering starting from a two-space
indentation. -/
theorem claim_indentation_round_trip_witness :
    PrettyPrint (Value.vecC "Foo" (ValueList.cons aggFoo ValueList.nil)) "  "
      = Except.ok ("\x7b\n    <Foo>\n    [0] = \x7b\n      f: int = 7\n    \x7d\n  \x7d", "  ")
    ∧ ("  " : String) = "  " :=
  ⟨rfl,
   claim_indentation_round_trip (Value.vecC "Foo" (ValueList.cons aggFoo ValueList.nil)) "  "
     "\x7b\n    <Foo>\n    [0] = \x7b\n      f: int = 7\n    \x7d\n  \x7d" "  " (by rfl)⟩

/-- C2: a non-empty sequence of scalar elements renders on one line as the
elements comma-space separated between braces, with no trailing separator
and no type header, whatever the container size; a one-element scalar
vector renders inline, and the sequence 1, 2, 3 renders as the one-line
brace form. -/
theorem claim_scalar_sequence_one_line (e : String) (tl : List String) (ind : String) :
    PrettyPrint (Value.vecS (e :: tl)) ind
      = Except.ok ("\x7b" ++ commaSpaceJoined (e :: tl) ++ "\x7d", ind)
    ∧ PrettyPrint (Value.vecS [e]) ind = Except.ok ("\x7b" ++ e ++ "\x7d", ind)
    ∧ PrettyPrint (Value.vecS ["1", "2", "3"]) ind = Except.ok ("\x7b1, 2, 3\x7d", ind) := by
  refine ⟨?_, ?_, ?_⟩
  · simp [PrettyPrint, scalarElemsBody_eq_commaSpaceJoined]
  · simp [PrettyPrint, scalarElemsBody, commaSepTail, append_empty_str]
  · rfl

/-- C3: every sequence, set, map or adapter with zero elements renders as
exactly the two brace characters with no newline, whatever the declared
element, key or value type. -/
theorem claim_empty_composites (ind ety kty vty : String) :
    PrettyPrint (Value.vecS []) ind = Except.ok ("\x7b\x7d", ind)
    ∧ PrettyPrint (Value.vecC ety ValueList.nil) ind = Except.ok ("\x7b\x7d", ind)
    ∧ PrettyPrint (Value.queS []) ind = Except.ok ("\x7b\x7d", ind)
    ∧ PrettyPrint (Value.queC ety ValueList.nil) ind = Except.ok ("\x7b\x7d", ind)
    ∧ PrettyPrint (Value.stkS []) ind = Except.ok ("\x7b\x7d", ind)
    ∧ PrettyPrint (Value.stkC ety ValueList.nil) ind = Except.ok ("\x7b\x7d", ind)
    ∧ PrettyPrint (Value.setS []) ind = Except.ok ("\x7b\x7d", ind)
    ∧ PrettyPrint (Value.setC ety ValueList.nil) ind = Except.ok ("\x7b\x7d", ind)
    ∧ PrettyPrint (Value.usetS []) ind = Except.ok ("\x7b\x7d", ind)
    ∧ PrettyPrint (Value.usetC ety ValueList.nil) ind = Except.ok ("\x7b\x7d", ind)
    ∧ PrettyPrint (Value.mapV kty vty EntryList.nil) ind = Except.ok ("\x7b\x7d", ind) :=
  ⟨rfl, rfl, rfl, rfl, rfl, rfl, rfl, rfl, rfl, rfl, rfl⟩

/-- C4 counterexample to the literal header text: the display name the
source's remap table produces for the standard string type is
`std::string` (src/dbg.h:141), never bare `string`, so the scenario
mapping's header line is `<int -> std::string>`, not `<int -> string>`. -/
theorem claim_map_header_counterexample :
    PrettyPrint (Value.mapV "int" cxxStringName
        (EntryList.cons (Value.scalar "1") (Value.vstr "a") EntryList.nil)) ""
      = Except.ok ("\x7b\n  <int -> std::string>\n  [1] = \"a\"\n\x7d", "")
    ∧ ("\x7b\n  <int -> std::string>\n  [1] = \"a\"\n\x7d" : String)
        ≠ "\x7b\n  <int -> string>\n  [1] = \"a\"\n\x7d"
    ∧ PrintTypeName cxxStringName ≠ "string" := by
  refine ⟨rfl, ?_, ?_⟩ <;> decide

/-- C4 (amended: the header's value-type display name is `std::string`,
as the remap table produces, rather than bare `string`): a non-empty
mapping always renders in the multi-line aggregate-style form whose header
shows both types, even when key and value are scalar; the scenario mapping
from int 1 to string "a" renders with header line `<int -> std::string>`
and the single indented entry line `[1] = "a"`. -/
theorem claim_map_always_multiline (kty vty : String) (k v : Value) (tl : EntryList)
    (ind o ind2 : String)
    (h : PrettyPrint (Value.mapV kty vty (EntryList.cons k v tl)) ind = Except.ok (o, ind2)) :
    (∃ body, o = "\x7b\n" ++ IncreaseIndent ind ++ "<" ++ PrintTypeName kty ++ " -> "
        ++ PrintTypeName vty ++ ">\n" ++ body ++ ind ++ "\x7d")
    ∧ PrettyPrint (Value.mapV "int" cxxStringName
        (EntryList.cons (Value.scalar "1") (Value.vstr "a") EntryList.nil)) ""
      = Except.ok ("\x7b\n  <int -> std::string>\n  [1] = \"a\"\n\x7d", "") := by
  constructor
  · simp only [PrettyPrint] at h
    split at h
    next err heq => simp at h
    next body indb heq =>
      simp only [Except.ok.injEq, Prod.mk.injEq] at h
      have hinv := indentInvMapEntries (EntryList.cons k v tl) (IncreaseIndent ind) body indb heq
      refine ⟨body, ?_⟩
      rw [← h.1, hinv, DecreaseIndent_IncreaseIndent]
  · rfl

/-- Witness for C4 at the scenario mapping itself. -/
theorem claim_map_always_multiline_witness :
    (∃ body, ("\x7b\n  <int -> std::string>\n  [1] = \"a\"\n\x7d" : String)
        = "\x7b\n" ++ IncreaseIndent "" ++ "<" ++ PrintTypeName "int" ++ " -> "
          ++ PrintTypeName cxxStringName ++ ">\n" ++ body ++ "" ++ "\x7d")
    ∧ PrettyPrint (Value.mapV "int" cxxStringName
        (EntryList.cons (Value.scalar "1") (Value.vstr "a") EntryList.nil)) ""
      = Except.ok ("\x7b\n  <int -> std::string>\n  [1] = \"a\"\n\x7d", "") :=
  claim_map_always_multiline "int" cxxStringName (Value.scalar "1") (Value.vstr "a")
    EntryList.nil "" "\x7b\n  <int -> std::string>\n  [1] = \"a\"\n\x7d" "" (by rfl)

/-- C5: rendering a null single-owner indirection fails with the explicit
null-dereference error.  In the source the corresponding point is an
unguarded dereference of the null pointer (src/dbg.h:578-597), undefined
behavior that can print garbage or crash; the embedding reports that
fallibility as the explicit failure the spec mandates. -/
theorem claim_null_indirection_render (ind pty : String) :
    PrettyPrint (Value.uptrS none) ind = Except.error nullDerefMsg
    ∧ PrettyPrint (Value.uptrCNull pty) ind = Except.error nullDerefMsg :=
  ⟨rfl, rfl⟩

/-- C6: the splitter applied to the scenario raw text produces exactly the
three names: the parenthesized argument is stripped to the text strictly
between the matching outer parentheses, the others run to the next
top-level comma with leading whitespace skipped. -/
theorem claim_splitter_scenario :
    popMany "a, b + c, (Foo(x, y))" 3 = Except.ok ["a", "b + c", "Foo(x, y)"] := rfl

/-- C7: on input "a" the first pop succeeds, but the second pop — after the
input is exhausted — has scan index two past the last character, escapes
the end-of-input equality guard, and performs an out-of-range read
(undefined behavior in the source), contradicting the claim that exhausted
pops return an empty name and never read out of range. -/
theorem claim_pop_past_end_out_of_range :
    popMany "a" 1 = Except.ok ["a"]
    ∧ popMany "a" 2 = Except.error "index out of range"
    ∧ ArgNames.pop "a".data 2 = Except.error "index out of range" :=
  ⟨rfl, rfl, rfl⟩

/-- C8 counterexample to the literal line text: the display type name of a
standard string argument is `std::string` (src/dbg.h:141), so the second
scenario line reads `y: std::string = "hi"`, not `y: string = "hi"`. -/
theorem claim_multiplexer_scenario_counterexample :
    MultiplexPrettyPrintOnVaArgs "x, y"
        (FieldList.cons "int" (Value.scalar "5")
          (FieldList.cons cxxStringName (Value.vstr "hi") FieldList.nil)) ""
      = Except.ok ("x: int = 5\ny: std::string = \"hi\"\n", "")
    ∧ ("x: int = 5\ny: std::string = \"hi\"\n" : String)
        ≠ "x: int = 5\ny: string = \"hi\"\n" := by
  refine ⟨rfl, ?_⟩
  decide

/-- C8 (amended: the type column for the string argument reads
`std::string` rather than `string`): for each name/value pair in order the
multiplexer emits one newline-terminated indented line made of the popped
name, a colon and space, the display type name, an equals sign, and the
rendered value; the scenario with raw text "x, y" and values 5 and "hi"
produces the lines `x: int = 5` and `y: std::string = "hi"`. -/
theorem claim_multiplexer_lines (args : List Char) (idx idx2 : Nat) (tyName : String)
    (v : Value) (tl : FieldList) (ind name s ind1 : String)
    (hp : ArgNames.pop args idx = Except.ok (name, idx2))
    (hv : PrettyPrint v ind = Except.ok (s, ind1)) :
    (∀ err, MultiplexPrettyPrintOnNamedArgs args idx2 tl ind1 = Except.error err →
       MultiplexPrettyPrintOnNamedArgs args idx (FieldList.cons tyName v tl) ind
         = Except.error err)
    ∧ (∀ t ind2, MultiplexPrettyPrintOnNamedArgs args idx2 tl ind1 = Except.ok (t, ind2) →
       MultiplexPrettyPrintOnNamedArgs args idx (FieldList.cons tyName v tl) ind
         = Except.ok (ind ++ name ++ ": " ++ PrintTypeName tyName ++ " = " ++ s ++ "\n" ++ t,
             ind2))
    ∧ MultiplexPrettyPrintOnVaArgs "x, y"
        (FieldList.cons "int" (Value.scalar "5")
          (FieldList.cons cxxStringName (Value.vstr "hi") FieldList.nil)) ""
      = Except.ok ("x: int = 5\ny: std::string = \"hi\"\n", "") := by
  refine ⟨?_, ?_, rfl⟩
  · intro err ht
    simp only [MultiplexPrettyPrintOnNamedArgs, hp, hv, ht]
  · intro t ind2 ht
    simp only [MultiplexPrettyPrintOnNamedArgs, hp, hv, ht]

/-- Witness for C8 on a one-field list with name text "n". -/
theorem claim_multiplexer_lines_witness :
    MultiplexPrettyPrintOnVaArgs "x, y"
        (FieldList.cons "int" (Value.scalar "5")
          (FieldList.cons cxxStringName (Value.vstr "hi") FieldList.nil)) ""
      = Except.ok ("x: int = 5\ny: std::string = \"hi\"\n", "") :=
  (claim_multiplexer_lines "n".data 0 2 "int" (Value.scalar "1") FieldList.nil "" "n" "1" ""
    (by rfl) (by rfl)).2.2

/-- C9: in the multi-line rendering of class-element sets, the unordered
variant emits each element line with no index tag in front (indeed with no
line prefix at all, src/dbg.h:514-517), while the ordered variant — like
the other multi-line composites — puts the indentation and the bracketed
index before each element. -/
theorem claim_uset_omits_index_tag (v : Value) (tl : ValueList) (ind s ind1 : String)
    (h : PrettyPrint v ind = Except.ok (s, ind1)) :
    (∀ t ind2, PrettyPrintSetElems tl ind1 = Except.ok (t, ind2) →
       PrettyPrintSetElems (ValueList.cons v tl) ind = Except.ok (s ++ "\n" ++ t, ind2))
    ∧ (∀ i t ind2, PrettyPrintElems (i + 1) tl ind1 = Except.ok (t, ind2) →
       PrettyPrintElems i (ValueList.cons v tl) ind
         = Except.ok (ind ++ "[" ++ toString i ++ "] = " ++ s ++ "\n" ++ t, ind2))
    ∧ PrettyPrint (Value.setC "Foo" (ValueList.cons aggFoo ValueList.nil)) ""
        = Except.ok ("\x7b\n  <Foo>\n  [0] = \x7b\n    f: int = 7\n  \x7d\n\x7d", "")
    ∧ PrettyPrint (Value.usetC "Foo" (ValueList.cons aggFoo ValueList.nil)) ""
        = Except.ok ("\x7b\n  <Foo>\n\x7b\n    f: int = 7\n  \x7d\n\x7d", "") := by
  refine ⟨?_, ?_, rfl, rfl⟩
  · intro t ind2 ht
    simp only [PrettyPrintSetElems, h, ht]
  · intro i t ind2 ht
    simp only [PrettyPrintElems, h, ht]

/-- Witness for C9 with a one-element list holding the scalar 9. -/
theorem claim_uset_omits_index_tag_witness :
    PrettyPrint (Value.usetC "Foo" (ValueList.cons aggFoo ValueList.nil)) ""
      = Except.ok ("\x7b\n  <Foo>\n\x7b\n    f: int = 7\n  \x7d\n\x7d", "") :=
  (claim_uset_omits_index_tag (Value.scalar "9") ValueList.nil "" "9" "" (by rfl)).2.2.2

/-- C10: a non-empty LIFO adapter renders its elements top first, the
reverse of the order in which they were pushed, while a non-empty FIFO
adapter renders front first, in push order. -/
theorem claim_adapter_drain_order (e : String) (tl : List String) (ind : String) :
    PrettyPrint (Value.stkS (stackOfPushes (e :: tl))) ind
      = Except.ok ("\x7b" ++ commaSpaceJoined ((e :: tl).reverse) ++ "\x7d", ind)
    ∧ PrettyPrint (Value.queS (queueOfPushes (e :: tl))) ind
      = Except.ok ("\x7b" ++ commaSpaceJoined (e :: tl) ++ "\x7d", ind) := by
  constructor
  · simp [PrettyPrint, stackOfPushes_eq_reverse, scalarElemsBody_eq_commaSpaceJoined]
  · simp [PrettyPrint, queueOfPushes_eq_self, scalarElemsBody_eq_commaSpaceJoined]
